import Mathlib

/-!
Verification of the claude-voice session/interaction state machine and
speech-segmentation engine.

This file is a shallow embedding of the components of the repository that the
verified properties concern:

* `send_query` / `send_to_claude` — continuation-id (session-id) handling of
  `ClaudeClient.send_query` and `VoiceInterface.send_to_claude`
  (`voice_assistant/core/claude_client.py`, `voice_assistant/core/interface.py`).
  The external process is modelled as an oracle input (`ClaudeOutput`); the
  per-profile session file is modelled as an `Option String` store.
* cancellation interleavings — the two watcher threads of
  `VoiceInterface._listen_for_cancel` racing to cancel a long-running
  `ClaudeClient` call; `ClaudeClient.cancel` is atomic because of its lock.
* `record_with_vad` / `trim_silence_with_vad` — the probabilistic endpointer of
  `voice_assistant/audio/recorder.py`, with wall-clock time modelled as
  iteration-count times the blocking chunk-read duration.
* `record_with_amplitude` — the energy-threshold endpointer.
* `calibrate_noise_floor` — the noise-floor calibration.
* `transcribe` — the post-filtering of `WhisperTranscriber.transcribe`, with the
  recognition model's raw text as an oracle input.
-/

set_option maxRecDepth 8000
set_option maxHeartbeats 800000

namespace ClaudeVoice

/-! ## Session-continuation model (ClaudeClient.send_query) -/

/-- Outcome of one invocation of the external claude CLI process: a non-zero
exit with stderr text, stdout that does not parse as JSON, or a JSON object
with an optional `session_id` and a `result` field. -/
inductive ClaudeOutput where
  | failed (stderr : String)
  | rawOutput (stdout : String)
  | jsonOutput (sessionId : Option String) (result : String)
deriving DecidableEq

/-- Observable effects of one `send_query` call: the session store right after
the reset-deletion step (what the file holds when the process is invoked), the
`--resume` argument passed to the process, the session store after the reply
has been handled, and the response text returned to the caller. -/
structure QueryResult where
  storeAtInvoke : Option String
  resumeArg : Option String
  newStore : Option String
  response : String
deriving DecidableEq

/-- Model of `ClaudeClient.send_query` (claude_client.py lines 18-123).
`store` is the content of the active profile's `.session_id` file (`none` when
the file does not exist). The file is deleted when `reset_context` is set; the
`--resume` argument is added exactly when the file still exists and no reset
was requested; a `session_id` carried by a successful JSON reply overwrites the
store; a failed or non-JSON reply leaves the store as it was at invocation. -/
def send_query (store : Option String) (reset_context : Bool) (out : ClaudeOutput) :
    QueryResult :=
  let store1 := if reset_context then none else store
  let resumeArg := if store1.isSome && !reset_context then store1 else none
  match out with
  | .failed e => ⟨store1, resumeArg, store1, "Error: " ++ e⟩
  | .rawOutput s => ⟨store1, resumeArg, store1, s⟩
  | .jsonOutput sid res =>
      ⟨store1, resumeArg, (match sid with | some y => some y | none => store1), res⟩

/-- State of the interface relevant to dispatching: the session store of the
active profile and the one-shot `reset_context_mode` flag of the profile
manager. -/
structure AssistantState where
  store : Option String
  reset_context_mode : Bool
deriving DecidableEq

/-- Model of `VoiceInterface.send_to_claude` (interface.py lines 272-298): one
dispatch through `send_query`, passing the profile manager's
`reset_context_mode` flag and clearing it afterwards. -/
def send_to_claude (st : AssistantState) (out : ClaudeOutput) :
    AssistantState × QueryResult :=
  let q := send_query st.store st.reset_context_mode out
  let newFlag := if st.reset_context_mode then false else st.reset_context_mode
  (⟨q.newStore, newFlag⟩, q)

/-- Claim C1: a non-reset dispatch with stored continuation id `X` invokes the
external process with `--resume X`; whenever the reply is a JSON object
carrying a `session_id` `Y`, `Y` is written to the session store, so every
subsequent non-reset dispatch resumes with `Y` (and, when `Y ≠ X`, no longer
with `X`); and for any dispatch whatsoever the resume argument is never
synthesized locally — it is either absent or the stored id itself. -/
theorem claim_C1 (st : AssistantState) (out : ClaudeOutput) (X : String)
    (hX : st.store = some X) (hr : st.reset_context_mode = false) :
    (send_to_claude st out).2.resumeArg = some X ∧
    (∀ Y res, out = .jsonOutput (some Y) res →
      (send_to_claude st out).1.store = some Y ∧
      ∀ out2,
        (send_to_claude (send_to_claude st out).1 out2).2.resumeArg = some Y ∧
        (Y ≠ X →
          (send_to_claude (send_to_claude st out).1 out2).2.resumeArg ≠ some X)) ∧
    (∀ s r o, (send_query s r o).resumeArg = none ∨ (send_query s r o).resumeArg = s) := by
  refine ⟨?_, ?_, ?_⟩
  · cases out <;> simp [send_to_claude, send_query, hX, hr]
  · rintro Y res rfl
    refine ⟨by simp [send_to_claude, send_query, hX, hr], ?_⟩
    intro out2
    constructor
    · cases out2 <;> simp [send_to_claude, send_query, hX, hr]
    · intro hne
      cases out2 <;> simp [send_to_claude, send_query, hX, hr] <;> exact fun h => hne h
  · intro s r o
    cases o <;> cases r <;> cases s <;> simp [send_query]

/-- Witness for claim C1 at a concrete state and reply. -/
theorem claim_C1_witness :
    (send_to_claude ⟨some "X", false⟩ (.jsonOutput (some "Y") "reply")).2.resumeArg
      = some "X" :=
  (claim_C1 ⟨some "X", false⟩ (.jsonOutput (some "Y") "reply") "X" rfl rfl).1

/-- Claim C2: a reset dispatch deletes the session store before the process is
invoked (regardless of prior content), passes no `--resume` argument, and
clears the one-shot flag, so the following dispatch is a non-reset dispatch
that performs no deletion. -/
theorem claim_C2 (st : AssistantState) (out : ClaudeOutput)
    (h : st.reset_context_mode = true) :
    (send_to_claude st out).2.storeAtInvoke = none ∧
    (send_to_claude st out).2.resumeArg = none ∧
    (send_to_claude st out).1.reset_context_mode = false ∧
    (∀ out2,
      (send_to_claude (send_to_claude st out).1 out2).2.storeAtInvoke
        = (send_to_claude st out).1.store) := by
  refine ⟨?_, ?_, ?_, ?_⟩
  · cases out <;> simp [send_to_claude, send_query, h]
  · cases out <;> simp [send_to_claude, send_query, h]
  · simp [send_to_claude, h]
  · intro out2
    cases out <;> cases out2 <;> simp [send_to_claude, send_query, h]

/-- Witness for claim C2 at a concrete state and reply. -/
theorem claim_C2_witness :
    (send_to_claude ⟨some "old", true⟩ (.rawOutput "hello")).2.storeAtInvoke = none :=
  (claim_C2 ⟨some "old", true⟩ (.rawOutput "hello") rfl).1

/-! ## Cancellation race model (VoiceInterface._listen_for_cancel) -/

/-- Atomic actions a watcher thread performs once it has decided to cancel:
write the shared `cancel_requested` flag, run `ClaudeClient.cancel` (atomic,
because its whole body holds `self._lock`), and call `tts_engine.stop`. -/
inductive CAction where
  | setFlag
  | cancelClaude
  | stopTts
deriving DecidableEq

/-- Shared state of the cancellation race: the `cancel_requested` flag, whether
`current_process` is still set, how many times the process was terminated, and
how many times `tts_engine.stop` ran. -/
structure CState where
  flag : Bool
  procAlive : Bool
  termCount : ℕ
  ttsStops : ℕ
deriving DecidableEq

/-- Effect of one atomic action. `cancelClaude` models the locked body of
`ClaudeClient.cancel`: terminate `current_process` only if it is still set,
then clear it. -/
def execAction (s : CState) : CAction → CState
  | .setFlag => ⟨true, s.procAlive, s.termCount, s.ttsStops⟩
  | .cancelClaude =>
      if s.procAlive then ⟨s.flag, false, s.termCount + 1, s.ttsStops⟩ else s
  | .stopTts => ⟨s.flag, s.procAlive, s.termCount, s.ttsStops + 1⟩

/-- Run a serialized schedule of atomic actions. -/
def execAll (s : CState) (l : List CAction) : CState :=
  l.foldl execAction s

/-- Fuel-driven enumeration of interleavings (the fuel is an upper bound on the
total remaining length, so the last case is never reached in `interleavings`). -/
def interleavingsAux : ℕ → List CAction → List CAction → List (List CAction)
  | _, [], ys => [ys]
  | _, x :: xs, [] => [x :: xs]
  | n + 1, x :: xs, y :: ys =>
      (interleavingsAux n xs (y :: ys)).map (fun l => x :: l) ++
      (interleavingsAux n (x :: xs) ys).map (fun l => y :: l)
  | 0, x :: xs, y :: ys => [x :: xs ++ y :: ys]

/-- All interleavings of two threads' action sequences. -/
def interleavings (xs ys : List CAction) : List (List CAction) :=
  interleavingsAux (xs.length + ys.length) xs ys

/-- The action sequence each watcher (ESC-key watcher and voice barge-in
watcher) runs when it fires, in source order. -/
def watcherProgram : List CAction := [.setFlag, .cancelClaude, .stopTts]

/-- Initial state while one long-running Claude call is in flight. -/
def initCancelState : CState := ⟨false, true, 0, 0⟩

/-- Claim C4: if both the cancel-keystroke watcher and the voice-barge-in
watcher fire within the same poll interval, then under every interleaving of
their action sequences the in-flight process is terminated exactly once (the
lock inside `ClaudeClient.cancel` makes its check-terminate-clear body atomic)
and the shared cancellation flag ends up set. -/
theorem claim_C4 :
    ∀ l ∈ interleavings watcherProgram watcherProgram,
      (execAll initCancelState l).termCount = 1 ∧
      (execAll initCancelState l).flag = true := by decide

/-- Witness for claim C4 on the fully synchronous interleaving. -/
theorem claim_C4_witness :
    (execAll initCancelState
        [.setFlag, .setFlag, .cancelClaude, .cancelClaude, .stopTts, .stopTts]).termCount = 1 ∧
    (execAll initCancelState
        [.setFlag, .setFlag, .cancelClaude, .cancelClaude, .stopTts, .stopTts]).flag = true :=
  claim_C4 [.setFlag, .setFlag, .cancelClaude, .cancelClaude, .stopTts, .stopTts] (by decide)

/-! ## Goodbye detection (VoiceInterface._is_goodbye_command) -/

/-- Characters matched by Python's regex class `\w` (ASCII range): letters,
digits and underscore. -/
def pyIsWordChar (c : Char) : Bool := c.isAlphanum || c == '_'

/-- Characters matched by Python's regex class `\s` (ASCII range). -/
def pyIsSpaceChar (c : Char) : Bool :=
  c == ' ' || c == '\t' || c == '\n' || c == '\r' || c == '\x0b' || c == '\x0c'

/-- Python's `str.strip()`: remove leading and trailing whitespace. -/
def pyStrip (l : List Char) : List Char :=
  ((l.dropWhile pyIsSpaceChar).reverse.dropWhile pyIsSpaceChar).reverse

/-- The cleanup applied by `_is_goodbye_command`:
`re.sub(r'[^\w\s]', '', text.lower()).strip()`. -/
def cleanText (text : List Char) : List Char :=
  pyStrip ((text.map Char.toLower).filter (fun c => pyIsWordChar c || pyIsSpaceChar c))

/-- The fixed goodbye phrase set of `_is_goodbye_command`. -/
def goodbyePhrases : List (List Char) :=
  ["goodbye".toList, "bye".toList, "bye bye".toList, "see you".toList,
   "see you later".toList, "talk to you later".toList, "exit".toList, "quit".toList]

/-- Model of `VoiceInterface._is_goodbye_command` (interface.py lines 23-30),
with Python strings modelled as character lists. -/
def is_goodbye_command (text : List Char) : Bool :=
  decide (cleanText text ∈ goodbyePhrases)

/-- Claim C9: goodbye detection is an exact match against the fixed phrase set,
invariant under case (it depends only on the lower-cased text) and under
appended punctuation (characters that are neither word characters nor
whitespace); "GOODBYE!", "goodbye." and "Goodbye" match while "goodbyee" does
not. -/
theorem claim_C9 :
    (∀ s t : List Char, s.map Char.toLower = t.map Char.toLower →
      is_goodbye_command s = is_goodbye_command t) ∧
    (∀ s p : List Char,
      (∀ c ∈ p, pyIsWordChar (Char.toLower c) = false ∧
                pyIsSpaceChar (Char.toLower c) = false) →
      is_goodbye_command (s ++ p) = is_goodbye_command s) ∧
    is_goodbye_command "GOODBYE!".toList = true ∧
    is_goodbye_command "goodbye.".toList = true ∧
    is_goodbye_command "Goodbye".toList = true ∧
    is_goodbye_command "goodbyee".toList = false ∧
    (∀ s : List Char, is_goodbye_command s = true ↔ cleanText s ∈ goodbyePhrases) := by
  refine ⟨?_, ?_, by decide, by decide, by decide, by decide, ?_⟩
  · intro s t h
    simp only [is_goodbye_command, cleanText, h]
  · intro s p hp
    have hnil : (p.map Char.toLower).filter (fun c => pyIsWordChar c || pyIsSpaceChar c) = [] := by
      rw [List.filter_eq_nil_iff]
      intro c hc
      rcases List.mem_map.mp hc with ⟨d, hd, rfl⟩
      simp [(hp d hd).1, (hp d hd).2]
    simp only [is_goodbye_command, cleanText, List.map_append, List.filter_append, hnil,
      List.append_nil]
  · intro s
    simp [is_goodbye_command]

/-- Witness for claim C9: the punctuation-invariance part applied to the
concrete input "bye" with appended punctuation "!?". -/
theorem claim_C9_witness :
    is_goodbye_command ("bye".toList ++ "!?".toList) = is_goodbye_command "bye".toList :=
  claim_C9.2.1 "bye".toList "!?".toList (by decide)

/-! ## Transcription post-filter (WhisperTranscriber.transcribe) -/

/-- Configuration fields of the transcriber model: the minimum audio length in
seconds, the audio chunk size in samples, and the sample rate. -/
structure TranscribeConfig where
  min_audio_length : ℚ
  chunk_size : ℕ
  sample_rate : ℕ
deriving DecidableEq

/-- The noise strings explicitly rejected by `transcribe`. -/
def whisperNoiseList : List (List Char) :=
  [".".toList, ",".toList, "?".toList, "!".toList, "...".toList, "---".toList]

/-- The ASCII validation step of `transcribe`: if the text encodes as ASCII it
is kept, otherwise every character with code point at least 128 is removed. -/
def asciiFilter (text : List Char) : List Char :=
  if text.all (fun c => c.toNat < 128) then text else text.filter (fun c => c.toNat < 128)

/-- Audio duration in seconds of `numFrames` chunks: the exact rational value
of `len(audio_frames) * chunk_size / sample_rate`, built with `mkRat` so that
it evaluates by kernel reduction. -/
def audioDuration (cfg : TranscribeConfig) (numFrames : ℕ) : ℚ :=
  mkRat (numFrames * cfg.chunk_size) cfg.sample_rate

/-- Model of `WhisperTranscriber.transcribe` (whisper.py lines 46-90) with the
recognition model loaded; `modelText` is the raw text the recognition model
produced for the segment and frames are opaque chunk identifiers. The text is
stripped, the segment duration is checked against the minimum, non-ASCII
characters are removed, and empty, single-character or listed noise strings
are rejected. -/
def transcribe (cfg : TranscribeConfig) (frames : List ℕ) (modelText : List Char) :
    Option (List Char) :=
  if frames.isEmpty then none
  else if audioDuration cfg frames.length < cfg.min_audio_length then none
  else if (asciiFilter (pyStrip modelText)).length ≤ 1
      || decide (asciiFilter (pyStrip modelText) ∈ whisperNoiseList) then none
  else some (asciiFilter (pyStrip modelText))

/-- Default transcription and audio configuration: minimum audio length 0.5 s,
chunk size 1024 samples, sample rate 16000 Hz. -/
def whisperDefaultConfig : TranscribeConfig := ⟨mkRat 1 2, 1024, 16000⟩

/-- Audio frames long enough for the default minimum duration (6.4 s). -/
def framesOK : List ℕ := List.replicate 100 0

/-- Counterexample to claim C8: the purely-punctuation text "?!" is returned,
not filtered out — `transcribe` rejects only the six exact noise strings, not
all punctuation-only text. -/
theorem claim_C8_counterexample :
    transcribe whisperDefaultConfig framesOK "?!".toList = some "?!".toList := by decide

/-- Claim C8 (amended): `transcribe` returns `none` whenever the segment
duration is below the configured minimum; every returned text has at least two
characters and is none of the six noise strings ".", ",", "?", "!", "...",
"---" (so empty and single-character text, including a lone digit, is
rejected); and stripped all-digit text of length at least two is always
returned when the duration requirement is met. -/
theorem claim_C8 (cfg : TranscribeConfig) (frames : List ℕ) (modelText : List Char) :
    (audioDuration cfg frames.length < cfg.min_audio_length →
      transcribe cfg frames modelText = none) ∧
    (∀ t, transcribe cfg frames modelText = some t →
      2 ≤ t.length ∧ t ∉ whisperNoiseList) ∧
    (frames.isEmpty = false →
      ¬(audioDuration cfg frames.length < cfg.min_audio_length) →
      (asciiFilter (pyStrip modelText)).all Char.isDigit = true →
      2 ≤ (asciiFilter (pyStrip modelText)).length →
      transcribe cfg frames modelText = some (asciiFilter (pyStrip modelText))) := by
  refine ⟨?_, ?_, ?_⟩
  · intro hdur
    by_cases hemp : frames.isEmpty = true <;> simp [transcribe, hemp, hdur]
  · intro t ht
    simp only [transcribe] at ht
    split_ifs at ht with h1 h2 h3
    simp only [Bool.or_eq_true, decide_eq_true_eq, not_or, Bool.not_eq_true,
      decide_eq_false_iff_not] at h3
    obtain rfl : asciiFilter (pyStrip modelText) = t := Option.some.inj ht
    refine ⟨?_, h3.2⟩
    have := h3.1
    omega
  · intro hemp hdur hdig hlen
    have hmem : asciiFilter (pyStrip modelText) ∉ whisperNoiseList := by
      intro hmem
      simp only [whisperNoiseList, List.mem_cons, List.not_mem_nil, or_false] at hmem
      rcases hmem with h | h | h | h | h | h <;> rw [h] at hdig hlen
      · exact absurd hlen (by decide)
      · exact absurd hlen (by decide)
      · exact absurd hlen (by decide)
      · exact absurd hlen (by decide)
      · exact absurd hdig (by decide)
      · exact absurd hdig (by decide)
    simp only [transcribe]
    rw [if_neg (by simp [hemp]), if_neg hdur, if_neg (by simp [hmem]; omega)]

/-- Witness for claim C8 at a concrete configuration, frame list and raw text:
the all-digit text "1234" with sufficient duration is returned. -/
theorem claim_C8_witness :
    transcribe whisperDefaultConfig framesOK "1234".toList
      = some (asciiFilter (pyStrip "1234".toList)) :=
  (claim_C8 whisperDefaultConfig framesOK "1234".toList).2.2 (by decide) (by decide)
    (by decide) (by decide)

/-- Claim C10: every text returned by `transcribe` contains only ASCII
characters — any non-ASCII characters in the recognition model's raw output are
removed before the text is filtered and returned. -/
theorem claim_C10 (cfg : TranscribeConfig) (frames : List ℕ) (modelText : List Char)
    (t : List Char) (h : transcribe cfg frames modelText = some t) :
    ∀ c ∈ t, c.toNat < 128 := by
  simp only [transcribe] at h
  split_ifs at h with h1 h2 h3
  obtain rfl : asciiFilter (pyStrip modelText) = t := Option.some.inj h
  intro c hc
  unfold asciiFilter at hc
  by_cases hall : (pyStrip modelText).all (fun c => c.toNat < 128) = true
  · rw [if_pos hall] at hc
    simpa using List.all_eq_true.mp hall c hc
  · rw [if_neg hall] at hc
    simpa using (List.mem_filter.mp hc).2

/-- Witness for claim C10: the raw model output "héllo" containing the
non-ASCII character 'é' is returned as "hllo", and the theorem applied to its
first character confirms it is ASCII. -/
theorem claim_C10_witness : ('h' : Char).toNat < 128 :=
  claim_C10 whisperDefaultConfig framesOK "héllo".toList "hllo".toList (by decide)
    'h' (by decide)

/-! ## Noise-floor calibration (AudioRecorder.calibrate_noise_floor) -/

/-- Arithmetic mean of a list of reals (`np.mean`). -/
noncomputable def listMean (l : List ℝ) : ℝ := l.sum / l.length

/-- Population standard deviation of a list of reals (`np.std`): the square
root of the mean squared deviation from the mean. -/
noncomputable def listStd (l : List ℝ) : ℝ :=
  Real.sqrt (listMean (l.map (fun x => (x - listMean l) ^ 2)))

/-- Model of `AudioRecorder._get_audio_amplitude` (recorder.py lines 102-107):
root mean square of the signed 16-bit samples of one chunk. -/
noncomputable def get_audio_amplitude (chunk : List ℤ) : ℝ :=
  Real.sqrt (listMean (chunk.map (fun s => ((s : ℝ)) ^ 2)))

/-- Result of a calibration run: the derived noise floor and the silence
threshold written into the audio configuration. -/
structure CalibrationResult where
  noise_floor : ℝ
  silence_threshold : ℝ

/-- Model of `AudioRecorder.calibrate_noise_floor` (recorder.py lines 69-100):
per-chunk RMS amplitudes are collected, the noise floor is their mean plus two
standard deviations, and the silence threshold is the maximum of three times
the noise floor and the literal constant 1000. -/
noncomputable def calibrate_noise_floor (chunks : List (List ℤ)) : CalibrationResult :=
  ⟨listMean (chunks.map get_audio_amplitude) + 2 * listStd (chunks.map get_audio_amplitude),
   max ((listMean (chunks.map get_audio_amplitude)
        + 2 * listStd (chunks.map get_audio_amplitude)) * 3) 1000⟩

/-- Counterexample to claim C5: with an all-silent calibration run (noise floor
0) the code sets the silence threshold to the hard-coded constant 1000, not to
`max(noise_floor * 3, configured_minimum)` — with a configured minimum of 2000
the claimed value would be 2000, but the code produces 1000. -/
theorem claim_C5_counterexample :
    (calibrate_noise_floor [[0], [0]]).noise_floor = 0 ∧
    (calibrate_noise_floor [[0], [0]]).silence_threshold = 1000 ∧
    (calibrate_noise_floor [[0], [0]]).silence_threshold ≠
      max ((calibrate_noise_floor [[0], [0]]).noise_floor * 3) 2000 := by
  have hamp : get_audio_amplitude [0] = 0 := by
    simp [get_audio_amplitude, listMean]
  have hnf : (calibrate_noise_floor [[0], [0]]).noise_floor = 0 := by
    simp [calibrate_noise_floor, hamp, listStd, listMean]
  have hth : (calibrate_noise_floor [[0], [0]]).silence_threshold = 1000 := by
    simp only [calibrate_noise_floor] at hnf ⊢
    rw [hnf, zero_mul]
    exact max_eq_right (by norm_num)
  refine ⟨hnf, hth, ?_⟩
  rw [hth, hnf, zero_mul, max_eq_right (by norm_num : (0:ℝ) ≤ 2000)]
  norm_num

/-- Claim C5 (amended): calibration sets the noise floor to mean plus two
standard deviations of the per-chunk RMS amplitudes, sets the silence
threshold to `max(noise_floor * 3, 1000)` where 1000 is a hard-coded constant
(not the configured minimum), hence the threshold is always at least three
times the noise floor; and the noise floor depends only on the amplitude
sequence, so identical amplitude sequences give identical noise floors. -/
theorem claim_C5 (chunks : List (List ℤ)) :
    (calibrate_noise_floor chunks).noise_floor
      = listMean (chunks.map get_audio_amplitude)
        + 2 * listStd (chunks.map get_audio_amplitude) ∧
    (calibrate_noise_floor chunks).silence_threshold
      = max ((calibrate_noise_floor chunks).noise_floor * 3) 1000 ∧
    3 * (calibrate_noise_floor chunks).noise_floor
      ≤ (calibrate_noise_floor chunks).silence_threshold ∧
    (∀ chunks2 : List (List ℤ),
      chunks2.map get_audio_amplitude = chunks.map get_audio_amplitude →
      (calibrate_noise_floor chunks2).noise_floor
        = (calibrate_noise_floor chunks).noise_floor) := by
  refine ⟨rfl, rfl, ?_, ?_⟩
  · rw [mul_comm]
    exact le_max_left _ _
  · intro chunks2 h
    simp only [calibrate_noise_floor, h]

/-- Witness for claim C5: the chunk lists `[[0,0],[0]]` and `[[0],[0]]` have
identical amplitude sequences, so calibration derives the same noise floor. -/
theorem claim_C5_witness :
    (calibrate_noise_floor [[0, 0], [0]]).noise_floor
      = (calibrate_noise_floor [[0], [0]]).noise_floor :=
  (claim_C5 [[0], [0]]).2.2.2 [[0, 0], [0]]
    (by simp [get_audio_amplitude, listMean])

/-! ## Amplitude-based endpointer (AudioRecorder.record_with_amplitude)

Wall-clock time is modelled by iteration counts: each loop iteration performs
one blocking chunk read of `chunk_size / sample_rate` seconds, so the elapsed
time at the top of iteration `i` is `i * chunk_size / sample_rate` seconds,
built as an exact rational with `mkRat`. -/

/-- One audio chunk for the amplitude endpointer: its RMS amplitude and an
opaque payload identifier. -/
structure AChunk where
  amp : ℚ
  data : ℕ
deriving DecidableEq

/-- Configuration used by `record_with_amplitude`. -/
structure AmpConfig where
  silence_threshold : ℚ
  silence_duration : ℚ
  chunk_size : ℕ
  sample_rate : ℕ
deriving DecidableEq

/-- Loop state of `record_with_amplitude`: accumulated frames, the consecutive
silent-chunk counter, and whether recording has started. -/
structure AmpState where
  frames : List AChunk
  silent_chunks : ℕ
  recording_started : Bool
deriving DecidableEq

/-- Result of the read loop: either the trace ran out before the loop exited
(the real loop would keep blocking on the device), or the loop exited with the
accumulated frames. -/
inductive AmpOut where
  | outOfInput
  | stopped (frames : List AChunk)
deriving DecidableEq

/-- The timeout test at the top of each iteration:
`timeout and (time.time() - start_time) > timeout` followed by
`if not recording_started: break`. -/
def ampTimeoutHit (cfg : AmpConfig) (timeout : Option ℚ) (i : ℕ) (started : Bool) : Bool :=
  match timeout with
  | some T => decide (T < mkRat (i * cfg.chunk_size) cfg.sample_rate) && !started
  | none => false

/-- The read loop of `record_with_amplitude` (recorder.py lines 273-299) over a
finite trace of chunks. A chunk above the silence threshold starts/continues
recording and resets the silent counter; once recording has started every
chunk is appended, and the loop breaks when the silent chunks cover more than
`silence_duration` seconds. -/
def ampLoop (cfg : AmpConfig) (timeout : Option ℚ) :
    List AChunk → ℕ → AmpState → AmpOut
  | [], i, st =>
      if ampTimeoutHit cfg timeout i st.recording_started then .stopped st.frames
      else .outOfInput
  | c :: rest, i, st =>
      if ampTimeoutHit cfg timeout i st.recording_started then .stopped st.frames
      else if cfg.silence_threshold < c.amp then
        ampLoop cfg timeout rest (i + 1) ⟨st.frames ++ [c], 0, true⟩
      else if st.recording_started then
        if cfg.silence_duration <
            mkRat ((st.silent_chunks + 1) * cfg.chunk_size) cfg.sample_rate then
          .stopped (st.frames ++ [c])
        else
          ampLoop cfg timeout rest (i + 1) ⟨st.frames ++ [c], st.silent_chunks + 1, true⟩
      else ampLoop cfg timeout rest (i + 1) st

/-- Model of `AudioRecorder.record_with_amplitude` (recorder.py lines 255-315):
run the read loop from the initial state, return `none` when no frames were
collected, and otherwise trim the last 10 chunks when more than 20 were
collected. The outer `Option` is `none` exactly when the finite trace ran out
before the loop exited. -/
def record_with_amplitude (cfg : AmpConfig) (timeout : Option ℚ) (trace : List AChunk) :
    Option (Option (List AChunk)) :=
  match ampLoop cfg timeout trace 0 ⟨[], 0, false⟩ with
  | .outOfInput => none
  | .stopped frames =>
      some (if frames.isEmpty then none
            else some (if 20 < frames.length then frames.take (frames.length - 10) else frames))

/-- Helper for claim C6: as long as every chunk is at or below the silence
threshold, the loop never starts recording and never collects a frame, so once
the timeout has elapsed — which, by the hypothesis on the total trace length,
happens at some iteration within the trace — it exits through the timeout
branch with no frames. -/
theorem ampLoop_silent (cfg : AmpConfig) (T : ℚ) :
    ∀ (trace : List AChunk) (i : ℕ),
      (∀ c ∈ trace, ¬(cfg.silence_threshold < c.amp)) →
      T < mkRat ((i + trace.length) * cfg.chunk_size) cfg.sample_rate →
      ampLoop cfg (some T) trace i ⟨[], 0, false⟩ = .stopped [] := by
  intro trace
  induction trace with
  | nil =>
      intro i _ hT
      have hhit : ampTimeoutHit cfg (some T) i false = true := by
        simp only [ampTimeoutHit, Bool.not_false, Bool.and_true, decide_eq_true_eq]
        simpa using hT
      simp [ampLoop, hhit]
  | cons c rest ih =>
      intro i hsil hT
      by_cases hhit : ampTimeoutHit cfg (some T) i false = true
      · simp [ampLoop, hhit]
      · have hstep : ampLoop cfg (some T) (c :: rest) i ⟨[], 0, false⟩
            = ampLoop cfg (some T) rest (i + 1) ⟨[], 0, false⟩ := by
          simp only [ampLoop, hhit, Bool.false_eq_true, if_false]
          rw [if_neg (hsil c (List.mem_cons_self c rest))]
        rw [hstep]
        exact ih (i + 1) (fun x hx => hsil x (List.mem_cons_of_mem c hx))
          (by
            have heq : ((i + 1 : ℕ) : ℤ) + (rest.length : ℤ)
                = (i : ℤ) + ((c :: rest).length : ℤ) := by
              push_cast [List.length_cons]; ring
            rw [heq]; exact hT)

/-- Claim C6: for every amplitude trace in which no chunk's RMS amplitude
exceeds the silence threshold, if the timeout elapses before the trace is
exhausted, `record_with_amplitude` returns the inner result `none` — silence
never starts a segment, and the no-speech outcome is a `none` result, not an
error. -/
theorem claim_C6 (cfg : AmpConfig) (T : ℚ) (trace : List AChunk)
    (hsil : ∀ c ∈ trace, ¬(cfg.silence_threshold < c.amp))
    (hT : T < mkRat (trace.length * cfg.chunk_size) cfg.sample_rate) :
    record_with_amplitude cfg (some T) trace = some none := by
  have h := ampLoop_silent cfg T trace 0 hsil (by simpa using hT)
  rw [record_with_amplitude, h]
  simp

/-- Witness for claim C6: a single silent chunk with a timeout of 0.01 s, which
is shorter than the 0.064 s duration of one 1024-sample chunk at 16 kHz. -/
theorem claim_C6_witness :
    record_with_amplitude ⟨1000, 2, 1024, 16000⟩ (some (mkRat 1 100))
      [⟨0, 0⟩] = some none :=
  claim_C6 ⟨1000, 2, 1024, 16000⟩ (mkRat 1 100) [⟨0, 0⟩] (by decide) (by decide)

/-! ## Probabilistic endpointer (AudioRecorder.record_with_vad)

Chunk data is opaque; the VAD model is deterministic, so each chunk carries the
speech probability the model assigns to it. As in the amplitude model, wall
clock time advances by one blocking chunk read (`chunk_size / sample_rate`
seconds) per iteration; the recorded activity and silence-start times are kept
as iteration counts, and every time comparison converts a count difference to
exact seconds with `mkRat`. -/

/-- One audio chunk for the probabilistic endpointer: the speech probability
the (deterministic) VAD model assigns to it and an opaque payload. -/
structure VChunk where
  prob : ℚ
  data : ℕ
deriving DecidableEq

/-- Configuration used by `record_with_vad`: the VAD thresholds, the audio
configuration's silence duration, and the VAD chunk size and sample rate. -/
structure VADConfig where
  speech_start_threshold : ℚ
  speech_continue_threshold : ℚ
  pre_buffer_size : ℕ
  consecutive_speech_needed : ℕ
  min_speech_chunks : ℕ
  inactivity_timeout : ℚ
  silence_duration : ℚ
  chunk_size : ℕ
  sample_rate : ℕ
deriving DecidableEq

/-- The defaults of `VADConfig` and `AudioConfig` (settings.py): start
threshold 0.85, continue threshold 0.5, pre-buffer capacity 10, 2 consecutive
chunks to start, minimum 3 speech chunks, inactivity timeout 120 s, silence
duration 2 s, chunk size 512 samples at 16 kHz. -/
def defaultVADConfig : VADConfig :=
  ⟨mkRat 85 100, mkRat 1 2, 10, 2, 3, 120, 2, 512, 16000⟩

/-- The literal `0.6` "maybe speech" threshold used for the pre-buffer and the
trimming pass. -/
def maybeSpeechThreshold : ℚ := mkRat 6 10

/-- Push one chunk onto the bounded pre-buffer
(`collections.deque(maxlen=n)`): when full, the oldest chunk is evicted. -/
def pushPreBuffer (n : ℕ) (buf : List VChunk) (c : VChunk) : List VChunk :=
  if n ≤ buf.length then buf.tail ++ [c] else buf ++ [c]

/-- Loop state of `record_with_vad`, named after the Python locals. The two
time fields hold iteration counts (the number of chunk reads completed when
they were written). -/
structure VState where
  frames : List VChunk
  pre_buffer : List VChunk
  recording_started : Bool
  consecutive_speech_count : ℕ
  silence_start_time : Option ℕ
  last_activity_time : ℕ
deriving DecidableEq

/-- Result of processing one chunk: continue with a new state, or break out of
the loop with the final frame list (the silence-duration break). -/
inductive VStep where
  | halt (frames : List VChunk)
  | cont (st : VState)
deriving DecidableEq

/-- Processing of one chunk inside the read loop of `record_with_vad`
(recorder.py lines 147-216): pre-buffer upkeep, the dual start/continue
thresholds, the consecutive-chunk start condition with pre-buffer prepending,
and the silence-duration end condition. -/
def vadProcess (cfg : VADConfig) (i : ℕ) (c : VChunk) (st : VState) : VStep :=
  let pre1 : List VChunk :=
    if !st.recording_started && decide (maybeSpeechThreshold < c.prob) then
      pushPreBuffer cfg.pre_buffer_size st.pre_buffer c
    else st.pre_buffer
  let isSpeech : Bool :=
    if st.recording_started then decide (cfg.speech_continue_threshold < c.prob)
    else decide (cfg.speech_start_threshold < c.prob)
  if isSpeech then
    if !st.recording_started
        && decide (cfg.consecutive_speech_needed ≤ st.consecutive_speech_count + 1) then
      .cont ⟨st.frames ++ pre1 ++ [c], [], true, st.consecutive_speech_count + 1, none, i + 1⟩
    else if st.recording_started then
      .cont ⟨st.frames ++ [c], pre1, true, st.consecutive_speech_count + 1, none, i + 1⟩
    else
      .cont ⟨st.frames, pre1, false, st.consecutive_speech_count + 1,
             st.silence_start_time, i + 1⟩
  else if st.recording_started then
    match st.silence_start_time with
    | none => .cont ⟨st.frames ++ [c], pre1, true, 0, some (i + 1), st.last_activity_time⟩
    | some t0 =>
      if cfg.silence_duration
          < mkRat (((i + 1 - t0) * cfg.chunk_size : ℕ) : ℤ) cfg.sample_rate then
        .halt (st.frames ++ [c])
      else .cont ⟨st.frames ++ [c], pre1, true, 0, some t0, st.last_activity_time⟩
  else .cont ⟨st.frames, pre1, false, 0, st.silence_start_time, st.last_activity_time⟩

/-- The timeout test at the top of each iteration of `record_with_vad` — the
break fires only when recording has not started. -/
def vadTimeoutHit (timeout : Option ℚ) (cfg : VADConfig) (i : ℕ) (started : Bool) : Bool :=
  match timeout with
  | some T => decide (T < mkRat ((i * cfg.chunk_size : ℕ) : ℤ) cfg.sample_rate) && !started
  | none => false

/-- The inactivity-watchdog test at the top of each iteration:
`(time.time() - last_activity_time) > inactivity_timeout`. The recorded
activity time never exceeds the current iteration count, so the truncated
natural subtraction agrees with the real elapsed time. -/
def vadInactivityHit (cfg : VADConfig) (i : ℕ) (lastActivity : ℕ) : Bool :=
  decide (cfg.inactivity_timeout
    < mkRat (((i - lastActivity) * cfg.chunk_size : ℕ) : ℤ) cfg.sample_rate)

/-- Result of the read loop: either the finite trace ran out before the loop
exited, or the loop exited with the accumulated frames and the
recording-started flag. -/
inductive VADOut where
  | outOfInput
  | stopped (frames : List VChunk) (started : Bool)
deriving DecidableEq

/-- The read loop of `record_with_vad` (recorder.py lines 135-216) over a
finite chunk trace: the timeout and inactivity checks at the top of each
iteration, then one chunk is read and processed. -/
def vadLoop (cfg : VADConfig) (timeout : Option ℚ) :
    List VChunk → ℕ → VState → VADOut
  | [], i, st =>
      if vadTimeoutHit timeout cfg i st.recording_started then
        .stopped st.frames st.recording_started
      else if vadInactivityHit cfg i st.last_activity_time then
        .stopped st.frames st.recording_started
      else .outOfInput
  | c :: rest, i, st =>
      if vadTimeoutHit timeout cfg i st.recording_started then
        .stopped st.frames st.recording_started
      else if vadInactivityHit cfg i st.last_activity_time then
        .stopped st.frames st.recording_started
      else
        match vadProcess cfg i c st with
        | .halt fr => .stopped fr true
        | .cont st2 => vadLoop cfg timeout rest (i + 1) st2

/-- Initial loop state of `record_with_vad`. -/
def initVState : VState := ⟨[], [], false, 0, none, 0⟩

/-- Backward scan for the most recent chunk whose probability exceeds the
"maybe speech" threshold, on the reversed frame list: distance from the end,
or `none` when no chunk qualifies. -/
def revFindSpeech : List VChunk → Option ℕ
  | [] => none
  | c :: rest =>
      if maybeSpeechThreshold < c.prob then some 0
      else (revFindSpeech rest).map (fun k => k + 1)

/-- The `last_speech_index` computed by `_trim_silence_with_vad`: the index of
the last chunk with probability above 0.6, or `len - 1` when there is none
(the Python initialisation). -/
def lastSpeechIndex (frames : List VChunk) : ℕ :=
  match revFindSpeech frames.reverse with
  | some k => frames.length - 1 - k
  | none => frames.length - 1

/-- Model of `AudioRecorder._trim_silence_with_vad` (recorder.py lines
233-253) with the VAD model present: lists shorter than 20 chunks are returned
unchanged, otherwise the list is truncated to 10 chunks past the last speech
chunk, capped at the list length. -/
def trim_silence_with_vad (frames : List VChunk) : List VChunk :=
  if frames.length < 20 then frames
  else frames.take (min (lastSpeechIndex frames + 10) frames.length)

/-- Model of `AudioRecorder.record_with_vad` (recorder.py lines 109-231) with
the VAD model present: run the read loop from the initial state; return `none`
when no frames were collected or recording never started, otherwise the
trimmed frame list. The outer `Option` is `none` exactly when the finite trace
ran out before the loop exited. -/
def record_with_vad (cfg : VADConfig) (timeout : Option ℚ) (trace : List VChunk) :
    Option (Option (List VChunk)) :=
  match vadLoop cfg timeout trace 0 initVState with
  | .outOfInput => none
  | .stopped frames started =>
      some (if frames.isEmpty || !started then none
            else some (trim_silence_with_vad frames))

/-- Helper: when the loop stops, `record_with_vad` post-processes the frames
it returned. -/
theorem record_with_vad_stopped (cfg : VADConfig) (timeout : Option ℚ)
    (trace frames : List VChunk) (started : Bool)
    (h : vadLoop cfg timeout trace 0 initVState = .stopped frames started) :
    record_with_vad cfg timeout trace
      = some (if frames.isEmpty || !started then none
              else some (trim_silence_with_vad frames)) := by
  unfold record_with_vad
  rw [h]

/-- Helper: the backward scan over a list whose suffix after `c` contains no
speech chunk and where `c` is a speech chunk finds exactly `c`. Stated on the
reversed shape used by `lastSpeechIndex`. -/
theorem revFindSpeech_append (xs ys : List VChunk) (c : VChunk)
    (hxs : ∀ x ∈ xs, ¬(maybeSpeechThreshold < x.prob))
    (hc : maybeSpeechThreshold < c.prob) :
    revFindSpeech (xs ++ c :: ys) = some xs.length := by
  induction xs with
  | nil => simp [revFindSpeech, hc]
  | cons x rest ih =>
      have hx : ¬(maybeSpeechThreshold < x.prob) := hxs x (by simp)
      simp only [List.cons_append, revFindSpeech, if_neg hx, List.append_eq]
      rw [ih (fun y hy => hxs y (by simp [hy]))]
      simp

/-- Helper: for a frame list of the shape `u ++ c :: v` where `c` is the last
speech chunk, `last_speech_index` is the position of `c`. -/
theorem lastSpeechIndex_decomp (u v : List VChunk) (c : VChunk)
    (hc : maybeSpeechThreshold < c.prob)
    (hv : ∀ x ∈ v, ¬(maybeSpeechThreshold < x.prob)) :
    lastSpeechIndex (u ++ c :: v) = u.length := by
  unfold lastSpeechIndex
  have hrev : (u ++ c :: v).reverse = v.reverse ++ c :: u.reverse := by
    simp [List.reverse_append]
  rw [hrev, revFindSpeech_append v.reverse u.reverse c
    (fun x hx => hv x (by simpa using hx)) hc]
  simp only [List.length_append, List.length_cons, List.length_reverse]
  omega

/-- Helper shared by claims C3 and C7: on a list of at least 20 chunks whose
last speech chunk is `c`, the trimming pass keeps everything up to 10 chunks
past `c`, capped at the list length. -/
theorem trim_eq_take (u v : List VChunk) (c : VChunk)
    (hlen : 20 ≤ (u ++ c :: v).length)
    (hc : maybeSpeechThreshold < c.prob)
    (hv : ∀ x ∈ v, ¬(maybeSpeechThreshold < x.prob)) :
    trim_silence_with_vad (u ++ c :: v)
      = (u ++ c :: v).take (min (u.length + 10) (u ++ c :: v).length) := by
  unfold trim_silence_with_vad
  rw [if_neg (by omega), lastSpeechIndex_decomp u v c hc hv]

/-- Claim C7 (amended): on frame lists of at least 20 chunks, the trimming pass
truncates to 10 chunks past the last chunk whose probability exceeds 0.6,
capped at the list length (shorter lists are returned unchanged); and for
every frame list the result is a prefix of the input. -/
theorem claim_C7 (u v : List VChunk) (c : VChunk)
    (hlen : 20 ≤ (u ++ c :: v).length)
    (hc : maybeSpeechThreshold < c.prob)
    (hv : ∀ x ∈ v, ¬(maybeSpeechThreshold < x.prob)) :
    trim_silence_with_vad (u ++ c :: v)
      = (u ++ c :: v).take (min (u.length + 10) (u ++ c :: v).length) ∧
    ∀ frames : List VChunk, ∃ n, trim_silence_with_vad frames = frames.take n := by
  refine ⟨trim_eq_take u v c hlen hc hv, ?_⟩
  intro frames
  unfold trim_silence_with_vad
  by_cases h : frames.length < 20
  · exact ⟨frames.length, by rw [if_pos h, List.take_length]⟩
  · exact ⟨min (lastSpeechIndex frames + 10) frames.length, by rw [if_neg h]⟩

/-- Witness for claim C7: a 20-chunk list whose last speech chunk sits at index
14 is truncated at the cap. -/
theorem claim_C7_witness :
    trim_silence_with_vad (List.replicate 14 (⟨mkRat 9 10, 0⟩ : VChunk)
        ++ (⟨mkRat 9 10, 0⟩ : VChunk) :: List.replicate 5 (⟨0, 0⟩ : VChunk))
      = (List.replicate 14 (⟨mkRat 9 10, 0⟩ : VChunk)
        ++ (⟨mkRat 9 10, 0⟩ : VChunk) :: List.replicate 5 (⟨0, 0⟩ : VChunk)).take
          (min ((List.replicate 14 (⟨mkRat 9 10, 0⟩ : VChunk)).length + 10)
            (List.replicate 14 (⟨mkRat 9 10, 0⟩ : VChunk)
              ++ (⟨mkRat 9 10, 0⟩ : VChunk) :: List.replicate 5 (⟨0, 0⟩ : VChunk)).length) :=
  (claim_C7 (List.replicate 14 ⟨mkRat 9 10, 0⟩) (List.replicate 5 ⟨0, 0⟩)
    ⟨mkRat 9 10, 0⟩ (by decide) (by decide) (by decide)).1

/-- A 19-chunk frame list whose only speech chunk is the first one. -/
def shortFrames : List VChunk := ⟨mkRat 7 10, 0⟩ :: List.replicate 18 ⟨0, 0⟩

/-- Counterexample to claim C7: on this 19-chunk list the last chunk whose
probability exceeds 0.6 is at index 0, so the claimed truncation would keep 10
chunks, but the code leaves lists shorter than 20 chunks untouched and returns
all 19. -/
theorem claim_C7_counterexample :
    shortFrames.length = 19 ∧
    maybeSpeechThreshold < (⟨mkRat 7 10, 0⟩ : VChunk).prob ∧
    (∀ x ∈ List.replicate 18 (⟨0, 0⟩ : VChunk), ¬(maybeSpeechThreshold < x.prob)) ∧
    lastSpeechIndex shortFrames = 0 ∧
    trim_silence_with_vad shortFrames
      ≠ shortFrames.take (min (0 + 10) shortFrames.length) := by decide

attribute [irreducible] revFindSpeech lastSpeechIndex trim_silence_with_vad record_with_vad

/-! ### Arithmetic facts about the default VAD timing (512-sample chunks at
16 kHz: one chunk read is 0.032 s, the silence duration 2 s is exceeded after
63 chunk reads, the inactivity timeout 120 s after 3750). -/

/-- Up to 3750 chunk reads cover at most 120 seconds. -/
theorem mkRat_le_inactivity (j : ℕ) (h : j ≤ 3750) :
    ¬((120:ℚ) < mkRat ((j * 512 : ℕ) : ℤ) 16000) := by
  rw [Rat.mkRat_eq_div, not_lt]
  push_cast
  rw [div_le_iff₀ (by norm_num : (0:ℚ) < (16000:ℚ))]
  have hj : (j:ℚ) ≤ 3750 := by exact_mod_cast h
  nlinarith

/-- The silence window of `j` chunk reads exceeds 2 seconds exactly when
`63 ≤ j`. -/
theorem silence_break_iff (j : ℕ) :
    ((2:ℚ) < mkRat ((j * 512 : ℕ) : ℤ) 16000) ↔ 63 ≤ j := by
  rw [Rat.mkRat_eq_div]
  push_cast
  rw [lt_div_iff₀ (by norm_num : (0:ℚ) < (16000:ℚ))]
  constructor
  · intro hlt
    by_contra hc
    push_neg at hc
    have hj : (j:ℚ) ≤ 62 := by exact_mod_cast (by omega : j ≤ 62)
    nlinarith
  · intro hz
    have hj : (63:ℚ) ≤ (j:ℚ) := by exact_mod_cast hz
    nlinarith

/-- With no timeout configured the timeout break never fires. -/
theorem vadTimeoutHit_none (cfg : VADConfig) (i : ℕ) (b : Bool) :
    vadTimeoutHit none cfg i b = false := rfl

/-- The inactivity watchdog does not fire while at most 3750 chunk reads have
happened since the last activity. -/
theorem vadInactivityHit_default (i last : ℕ) (h : i - last ≤ 3750) :
    vadInactivityHit defaultVADConfig i last = false := by
  simp only [vadInactivityHit, defaultVADConfig, decide_eq_false_iff_not]
  exact mkRat_le_inactivity (i - last) h

/-- Unfolding of one loop iteration when neither top-of-loop break fires. -/
theorem vadLoop_cons (cfg : VADConfig) (timeout : Option ℚ) (c : VChunk)
    (rest : List VChunk) (i : ℕ) (st : VState)
    (h1 : vadTimeoutHit timeout cfg i st.recording_started = false)
    (h2 : vadInactivityHit cfg i st.last_activity_time = false) :
    vadLoop cfg timeout (c :: rest) i st =
      match vadProcess cfg i c st with
      | .halt fr => .stopped fr true
      | .cont st2 => vadLoop cfg timeout rest (i + 1) st2 := by
  simp [vadLoop, h1, h2]

/-! ### Per-chunk step lemmas for `vadProcess` at the default configuration -/

/-- A chunk below the start threshold before recording: the consecutive
counter resets and only the pre-buffer may change. -/
theorem vadProcess_unstarted (i : ℕ) (c : VChunk) (frames q : List VChunk)
    (cnt : ℕ) (ss : Option ℕ) (la : ℕ)
    (h : ¬(defaultVADConfig.speech_start_threshold < c.prob)) :
    vadProcess defaultVADConfig i c ⟨frames, q, false, cnt, ss, la⟩ =
      .cont ⟨frames,
        (if maybeSpeechThreshold < c.prob then pushPreBuffer 10 q c else q),
        false, 0, ss, la⟩ := by
  have h' : ¬((mkRat 85 100 : ℚ) < c.prob) := h
  by_cases hm : maybeSpeechThreshold < c.prob <;>
    simp [vadProcess, defaultVADConfig, maybeSpeechThreshold, h', hm]

/-- The first above-start-threshold chunk: it joins the pre-buffer, the
counter becomes 1 (below the required 2), recording does not start. -/
theorem vadProcess_firstSpeech (i : ℕ) (c : VChunk) (frames q : List VChunk)
    (ss : Option ℕ) (la : ℕ)
    (h : defaultVADConfig.speech_start_threshold < c.prob) :
    vadProcess defaultVADConfig i c ⟨frames, q, false, 0, ss, la⟩ =
      .cont ⟨frames, pushPreBuffer 10 q c, false, 1, ss, i + 1⟩ := by
  have h' : (mkRat 85 100 : ℚ) < c.prob := h
  have hm : maybeSpeechThreshold < c.prob :=
    lt_trans (show maybeSpeechThreshold < mkRat 85 100 by decide) h'
  simp [vadProcess, defaultVADConfig, hm, h']

/-- The second consecutive above-start-threshold chunk: recording starts, the
pre-buffer (which already contains this chunk) is prepended to the frames, the
chunk itself is appended, and the pre-buffer is cleared. -/
theorem vadProcess_secondSpeech (i : ℕ) (c : VChunk) (frames q : List VChunk)
    (ss : Option ℕ) (la : ℕ)
    (h : defaultVADConfig.speech_start_threshold < c.prob) :
    vadProcess defaultVADConfig i c ⟨frames, q, false, 1, ss, la⟩ =
      .cont ⟨frames ++ pushPreBuffer 10 q c ++ [c], [], true, 2, none, i + 1⟩ := by
  have h' : (mkRat 85 100 : ℚ) < c.prob := h
  have hm : maybeSpeechThreshold < c.prob :=
    lt_trans (show maybeSpeechThreshold < mkRat 85 100 by decide) h'
  simp [vadProcess, defaultVADConfig, hm, h']

/-- A below-continue-threshold chunk while recording with no silence window
open: the chunk is appended and the silence window opens. -/
theorem vadProcess_silenceFirst (i : ℕ) (c : VChunk) (frames q : List VChunk)
    (cnt la : ℕ)
    (h : ¬(defaultVADConfig.speech_continue_threshold < c.prob)) :
    vadProcess defaultVADConfig i c ⟨frames, q, true, cnt, none, la⟩ =
      .cont ⟨frames ++ [c], q, true, 0, some (i + 1), la⟩ := by
  have h' : ¬((mkRat 1 2 : ℚ) < c.prob) := h
  simp [vadProcess, defaultVADConfig, h']

/-- A below-continue-threshold chunk while recording, silence window open for
fewer than 63 chunk reads: the chunk is appended, the window stays open. -/
theorem vadProcess_silenceCont (i : ℕ) (c : VChunk) (frames q : List VChunk)
    (cnt t0 la : ℕ)
    (h : ¬(defaultVADConfig.speech_continue_threshold < c.prob))
    (hj : i + 1 - t0 < 63) :
    vadProcess defaultVADConfig i c ⟨frames, q, true, cnt, some t0, la⟩ =
      .cont ⟨frames ++ [c], q, true, 0, some t0, la⟩ := by
  have h' : ¬((mkRat 1 2 : ℚ) < c.prob) := h
  have hbreak : ¬((2:ℚ) < mkRat (((i + 1 - t0) * 512 : ℕ) : ℤ) 16000) := by
    rw [silence_break_iff]
    omega
  push_cast at hbreak
  simp [vadProcess, defaultVADConfig, h', hbreak]

/-- A below-continue-threshold chunk while recording, silence window open for
at least 63 chunk reads (more than 2 seconds): the chunk is appended and the
loop breaks with the accumulated frames. -/
theorem vadProcess_silenceBreak (i : ℕ) (c : VChunk) (frames q : List VChunk)
    (cnt t0 la : ℕ)
    (h : ¬(defaultVADConfig.speech_continue_threshold < c.prob))
    (hj : 63 ≤ i + 1 - t0) :
    vadProcess defaultVADConfig i c ⟨frames, q, true, cnt, some t0, la⟩ =
      .halt (frames ++ [c]) := by
  have h' : ¬((mkRat 1 2 : ℚ) < c.prob) := h
  have hbreak : ((2:ℚ) < mkRat (((i + 1 - t0) * 512 : ℕ) : ℤ) 16000) := by
    rw [silence_break_iff]
    omega
  push_cast at hbreak
  simp [vadProcess, defaultVADConfig, h', hbreak]

/-- Unfolding of one loop iteration that continues with a new state. -/
theorem vadLoop_cons_cont (cfg : VADConfig) (timeout : Option ℚ) (c : VChunk)
    (rest : List VChunk) (i : ℕ) (st st2 : VState)
    (h1 : vadTimeoutHit timeout cfg i st.recording_started = false)
    (h2 : vadInactivityHit cfg i st.last_activity_time = false)
    (h3 : vadProcess cfg i c st = .cont st2) :
    vadLoop cfg timeout (c :: rest) i st = vadLoop cfg timeout rest (i + 1) st2 := by
  simp [vadLoop, h1, h2, h3]

/-- Unfolding of one loop iteration that breaks out of the loop. -/
theorem vadLoop_cons_halt (cfg : VADConfig) (timeout : Option ℚ) (c : VChunk)
    (rest : List VChunk) (i : ℕ) (st : VState) (fr : List VChunk)
    (h1 : vadTimeoutHit timeout cfg i st.recording_started = false)
    (h2 : vadInactivityHit cfg i st.last_activity_time = false)
    (h3 : vadProcess cfg i c st = .halt fr) :
    vadLoop cfg timeout (c :: rest) i st = .stopped fr true := by
  simp [vadLoop, h1, h2, h3]

attribute [irreducible] vadTimeoutHit vadInactivityHit vadProcess vadLoop

/-- Phase lemma: over a prefix in which no chunk meets the start threshold, the
loop collects no frames, keeps resetting the consecutive counter, and only
maintains the pre-buffer (one bounded push per chunk above 0.6). -/
theorem vadLoop_quiet_phase (a : List VChunk) :
    ∀ (rem : List VChunk) (i : ℕ) (q : List VChunk),
      (∀ c ∈ a, ¬(defaultVADConfig.speech_start_threshold < c.prob)) →
      i + a.length ≤ 3750 →
      vadLoop defaultVADConfig none (a ++ rem) i ⟨[], q, false, 0, none, 0⟩
        = vadLoop defaultVADConfig none rem (i + a.length)
            ⟨[], a.foldl (fun buf c =>
                if maybeSpeechThreshold < c.prob then pushPreBuffer 10 buf c else buf) q,
             false, 0, none, 0⟩ := by
  induction a with
  | nil =>
      intro rem i q _ _
      simp
  | cons c a' ih =>
      intro rem i q ha hi
      rw [List.cons_append,
          vadLoop_cons_cont defaultVADConfig none c (a' ++ rem) i _ _
            (vadTimeoutHit_none defaultVADConfig i false)
            (vadInactivityHit_default i 0 (by omega))
            (vadProcess_unstarted i c [] q 0 none 0 (ha c (List.mem_cons_self c a'))),
          ih rem (i + 1) _ (fun x hx => ha x (List.mem_cons_of_mem c hx))
            (by simp only [List.length_cons] at hi; omega)]
      simp only [List.foldl_cons, List.length_cons]
      congr 1
      omega

/-- Phase lemma: two consecutive chunks above the start threshold start the
recording; both enter the pre-buffer, which is then prepended to the frames,
and the second chunk is appended once more. -/
theorem vadLoop_start_phase (i : ℕ) (q : List VChunk) (rem : List VChunk)
    (s1 s2 : VChunk)
    (h1 : defaultVADConfig.speech_start_threshold < s1.prob)
    (h2 : defaultVADConfig.speech_start_threshold < s2.prob)
    (hi : i ≤ 3750) :
    vadLoop defaultVADConfig none (s1 :: s2 :: rem) i ⟨[], q, false, 0, none, 0⟩
      = vadLoop defaultVADConfig none rem (i + 2)
          ⟨pushPreBuffer 10 (pushPreBuffer 10 q s1) s2 ++ [s2], [], true, 2, none,
           i + 2⟩ := by
  rw [vadLoop_cons_cont defaultVADConfig none s1 (s2 :: rem) i _ _
        (vadTimeoutHit_none defaultVADConfig i false)
        (vadInactivityHit_default i 0 (by omega))
        (vadProcess_firstSpeech i s1 [] q none 0 h1),
      vadLoop_cons_cont defaultVADConfig none s2 rem (i + 1) _ _
        (vadTimeoutHit_none defaultVADConfig (i + 1) false)
        (vadInactivityHit_default (i + 1) (i + 1) (by omega))
        (vadProcess_secondSpeech (i + 1) s2 [] (pushPreBuffer 10 q s1) none (i + 1) h2)]
  simp only [List.nil_append]

/-- Phase lemma: the first below-continue-threshold chunk after the recording
started opens the silence window. -/
theorem vadLoop_first_silence (i : ℕ) (F : List VChunk) (c : VChunk)
    (rest : List VChunk) (cnt : ℕ)
    (hc : ¬(defaultVADConfig.speech_continue_threshold < c.prob)) :
    vadLoop defaultVADConfig none (c :: rest) i ⟨F, [], true, cnt, none, i⟩
      = vadLoop defaultVADConfig none rest (i + 1)
          ⟨F ++ [c], [], true, 0, some (i + 1), i⟩ :=
  vadLoop_cons_cont defaultVADConfig none c rest i _ _
    (vadTimeoutHit_none defaultVADConfig i true)
    (vadInactivityHit_default i i (by omega))
    (vadProcess_silenceFirst i c F [] cnt i hc)

/-- Phase lemma: with the silence window open since iteration `i0 + 1` (and
last activity at `i0`), a run of below-continue-threshold chunks is appended
until the 64th silent chunk — the first for which the window exceeds 2
seconds — breaks the loop. `j` counts the chunk reads since the window
opened. -/
theorem vadLoop_silence_phase :
    ∀ (b : List VChunk) (j i0 : ℕ) (F : List VChunk),
      (∀ c ∈ b, ¬(defaultVADConfig.speech_continue_threshold < c.prob)) →
      1 ≤ j → j ≤ 63 → 63 - j < b.length →
      vadLoop defaultVADConfig none b (i0 + j) ⟨F, [], true, 0, some (i0 + 1), i0⟩
        = .stopped (F ++ b.take (64 - j)) true := by
  intro b
  induction b with
  | nil =>
      intro j i0 F _ _ _ hlen
      simp at hlen
  | cons c rest ih =>
      intro j i0 F hb h1 h63 hlen
      by_cases hj : j = 63
      · subst hj
        rw [vadLoop_cons_halt defaultVADConfig none c rest (i0 + 63) _ _
              (vadTimeoutHit_none defaultVADConfig (i0 + 63) true)
              (vadInactivityHit_default (i0 + 63) i0 (by omega))
              (vadProcess_silenceBreak (i0 + 63) c F [] 0 (i0 + 1) i0
                (hb c (List.mem_cons_self c rest)) (by omega))]
        simp
      · have hjlt : j < 63 := lt_of_le_of_ne h63 hj
        rw [vadLoop_cons_cont defaultVADConfig none c rest (i0 + j) _ _
              (vadTimeoutHit_none defaultVADConfig (i0 + j) true)
              (vadInactivityHit_default (i0 + j) i0 (by omega))
              (vadProcess_silenceCont (i0 + j) c F [] 0 (i0 + 1) i0
                (hb c (List.mem_cons_self c rest)) (by omega))]
        have hstep := ih (j + 1) i0 (F ++ [c])
          (fun x hx => hb x (List.mem_cons_of_mem c hx))
          (by omega) (by omega) (by simp only [List.length_cons] at hlen; omega)
        rw [show i0 + j + 1 = i0 + (j + 1) from by omega, hstep]
        have htake : (c :: rest).take (64 - j) = c :: rest.take (63 - j) := by
          rw [show 64 - j = (63 - j) + 1 from by omega, List.take_succ_cons]
        rw [htake, show 64 - (j + 1) = 63 - j from by omega,
            List.append_assoc, List.singleton_append]

/-- One bounded pre-buffer push, written as a drop on the extended list. -/
theorem pushPreBuffer_eq (q : List VChunk) (c : VChunk) (h : q.length ≤ 10) :
    pushPreBuffer 10 q c = (q ++ [c]).drop ((q ++ [c]).length - 10) := by
  unfold pushPreBuffer
  by_cases h10 : 10 ≤ q.length
  · have hq : q.length = 10 := le_antisymm h h10
    rw [if_pos h10, show (q ++ [c]).length - 10 = 1 from by simp [hq],
        List.drop_append_of_le_length (by omega), List.drop_one]
  · rw [if_neg h10, show (q ++ [c]).length - 10 = 0 from (by simp; omega), List.drop_zero]

/-- Folding bounded pushes over a list keeps exactly the 10 most recent
elements of the concatenation. -/
theorem foldl_pushPreBuffer (xs : List VChunk) :
    ∀ q : List VChunk, q.length ≤ 10 →
      xs.foldl (pushPreBuffer 10) q = (q ++ xs).drop ((q ++ xs).length - 10) := by
  induction xs with
  | nil =>
      intro q h
      simp only [List.foldl_nil, List.append_nil]
      rw [show q.length - 10 = 0 from by omega, List.drop_zero]
  | cons x xs ih =>
      intro q h
      rw [List.foldl_cons]
      by_cases h10 : 10 ≤ q.length
      · have hq : q.length = 10 := le_antisymm h h10
        have hpush : pushPreBuffer 10 q x = q.tail ++ [x] := by
          unfold pushPreBuffer
          rw [if_pos h10]
        rw [hpush, ih (q.tail ++ [x])
              (by simp only [List.length_append, List.length_tail, List.length_cons,
                    List.length_nil, hq]; omega)]
        obtain ⟨y, q', rfl⟩ : ∃ y q', q = y :: q' := by
          cases q with
          | nil => simp at hq
          | cons y q' => exact ⟨y, q', rfl⟩
        have hq' : q'.length = 9 := by simpa using hq
        have e1 : ((y :: q').tail ++ [x]) ++ xs = q' ++ x :: xs := by simp
        have e2 : (y :: q') ++ x :: xs = y :: (q' ++ x :: xs) := by simp
        rw [e1, e2,
            show (q' ++ x :: xs).length - 10 = xs.length from by
              simp only [List.length_append, List.length_cons, hq']; omega,
            show (y :: (q' ++ x :: xs)).length - 10 = xs.length + 1 from by
              simp only [List.length_cons, List.length_append, hq']; omega,
            List.drop_succ_cons]
      · have hpush : pushPreBuffer 10 q x = q ++ [x] := by
          unfold pushPreBuffer
          rw [if_neg h10]
        have hlen2 : (q ++ [x]).length ≤ 10 := by
          simp only [List.length_append, List.length_cons, List.length_nil]
          omega
        rw [hpush, ih (q ++ [x]) hlen2, List.append_assoc, List.singleton_append]

/-- The conditional pre-buffer fold over all chunks equals the unconditional
fold over the chunks above the "maybe speech" threshold. -/
theorem foldl_pushIf (a : List VChunk) :
    ∀ q : List VChunk,
      a.foldl (fun buf c =>
          if maybeSpeechThreshold < c.prob then pushPreBuffer 10 buf c else buf) q
        = (a.filter (fun c => decide (maybeSpeechThreshold < c.prob))).foldl
            (pushPreBuffer 10) q := by
  induction a with
  | nil => intro q; simp
  | cons c a' ih =>
      intro q
      by_cases hc : maybeSpeechThreshold < c.prob
      · rw [List.foldl_cons, List.filter_cons_of_pos (by simpa using hc), List.foldl_cons]
        simp only [if_pos hc]
        exact ih _
      · rw [List.foldl_cons, List.filter_cons_of_neg (by simpa using hc)]
        simp only [if_neg hc]
        exact ih q

attribute [irreducible] pushPreBuffer

/-- Claim C3, at the default configuration. The trace is `a ++ s1 :: s2 :: b`
and each hypothesis renders one phrase of the claim:
`ha`/`hs1`/`hs2` — the start threshold (0.85) is met for exactly
`consecutive_speech_needed = 2` consecutive chunks (`s1, s2`) and nowhere in
the prefix `a`; `hb`/`hbLen` — the trace then stays below the continue
threshold (0.5) for longer than `silence_duration` (2 s: the loop appends
trailing silence until the 64th trailing chunk, whose window of 63 chunk
reads of 0.032 s exceeds 2 s, so at least 64 such chunks must exist);
`haLen` — the prefix is short enough (3750 chunks = 120 s) that the
inactivity watchdog does not abort the listen call first, which the spec
treats as a distinct end condition. Conclusion, mirroring the claim's
accounting: the returned segment is (pre-buffer contents at start: the last
`min 10 (count of prefix chunks above 0.6 + 2)` chunks above the 0.6
"maybe speech" threshold, the two start chunks included, `s2` being in the
pre-buffer as well as appended) ++ (the one chunk recorded while above the
continue threshold) ++ (the 9 trailing chunks the trim rule keeps), with the
chunk count equation stated explicitly; and the result is deterministic: any
identical probability trace with identical chunk data yields the identical
segment. -/
theorem claim_C3 (a b : List VChunk) (s1 s2 : VChunk)
    (ha : ∀ c ∈ a, ¬(defaultVADConfig.speech_start_threshold < c.prob))
    (haLen : a.length ≤ 3750)
    (hs1 : defaultVADConfig.speech_start_threshold < s1.prob)
    (hs2 : defaultVADConfig.speech_start_threshold < s2.prob)
    (hb : ∀ c ∈ b, ¬(defaultVADConfig.speech_continue_threshold < c.prob))
    (hbLen : 64 ≤ b.length) :
    ∃ preAtStart : List VChunk,
      preAtStart = ((a.filter fun c => decide (maybeSpeechThreshold < c.prob)) ++ [s1, s2]).drop
          (((a.filter fun c => decide (maybeSpeechThreshold < c.prob)).length + 2) - 10) ∧
      record_with_vad defaultVADConfig none (a ++ s1 :: s2 :: b)
        = some (some (preAtStart ++ s2 :: b.take 9)) ∧
      (preAtStart ++ s2 :: b.take 9).length
        = min 10 ((a.filter fun c => decide (maybeSpeechThreshold < c.prob)).length + 2)
          + 1 + 9 ∧
      (∀ trace2 : List VChunk, trace2 = a ++ s1 :: s2 :: b →
        record_with_vad defaultVADConfig none trace2
          = some (some (preAtStart ++ s2 :: b.take 9))) := by
  obtain ⟨b0, b', rfl⟩ : ∃ b0 b', b = b0 :: b' := by
    cases b with
    | nil => simp at hbLen
    | cons x xs => exact ⟨x, xs, rfl⟩
  have hbLen' : 63 ≤ b'.length := by
    simp only [List.length_cons] at hbLen
    omega
  have hfold : a.foldl (fun buf c =>
        if maybeSpeechThreshold < c.prob then pushPreBuffer 10 buf c else buf) []
      = (a.filter fun c => decide (maybeSpeechThreshold < c.prob)).foldl
          (pushPreBuffer 10) [] := foldl_pushIf a []
  have hPd : pushPreBuffer 10 (pushPreBuffer 10 (a.foldl (fun buf c =>
        if maybeSpeechThreshold < c.prob then pushPreBuffer 10 buf c else buf) []) s1) s2
      = ((a.filter fun c => decide (maybeSpeechThreshold < c.prob)) ++ [s1, s2]).drop
          (((a.filter fun c => decide (maybeSpeechThreshold < c.prob)).length + 2) - 10) := by
    rw [hfold]
    rw [show pushPreBuffer 10 (pushPreBuffer 10
          ((a.filter fun c => decide (maybeSpeechThreshold < c.prob)).foldl
            (pushPreBuffer 10) []) s1) s2
        = ((a.filter fun c => decide (maybeSpeechThreshold < c.prob)) ++ [s1, s2]).foldl
            (pushPreBuffer 10) [] from by rw [List.foldl_append]; rfl]
    rw [foldl_pushPreBuffer _ [] (by simp)]
    simp [List.length_append]
  have hloop : vadLoop defaultVADConfig none (a ++ s1 :: s2 :: b0 :: b') 0 initVState
      = .stopped ((pushPreBuffer 10 (pushPreBuffer 10 (a.foldl (fun buf c =>
            if maybeSpeechThreshold < c.prob then pushPreBuffer 10 buf c else buf) []) s1) s2
            ++ [s2]) ++ (b0 :: b').take 64) true := by
    rw [show initVState = (⟨[], [], false, 0, none, 0⟩ : VState) from rfl]
    rw [vadLoop_quiet_phase a (s1 :: s2 :: b0 :: b') 0 [] ha (by omega), Nat.zero_add]
    rw [vadLoop_start_phase a.length _ (b0 :: b') s1 s2 hs1 hs2 (by omega)]
    rw [vadLoop_first_silence (a.length + 2) _ b0 b' 2 (hb b0 (by simp))]
    have hC := vadLoop_silence_phase b' 1 (a.length + 2)
        ((pushPreBuffer 10 (pushPreBuffer 10 (a.foldl (fun buf c =>
            if maybeSpeechThreshold < c.prob then pushPreBuffer 10 buf c else buf) []) s1) s2
          ++ [s2]) ++ [b0])
        (fun x hx => hb x (List.mem_cons_of_mem b0 hx))
        le_rfl (by omega) (by omega)
    rw [hC, show (64:ℕ) - 1 = 63 from rfl,
        show (b0 :: b').take 64 = b0 :: b'.take 63 from rfl]
    simp [List.append_assoc]
  have hT64 : ((b0 :: b').take 64).length = 64 := by
    rw [List.length_take]
    simp only [List.length_cons]
    omega
  have hne : ((pushPreBuffer 10 (pushPreBuffer 10 (a.foldl (fun buf c =>
        if maybeSpeechThreshold < c.prob then pushPreBuffer 10 buf c else buf) []) s1) s2
        ++ [s2]) ++ (b0 :: b').take 64).isEmpty = false := by
    simp [List.isEmpty_iff]
  have hrec := record_with_vad_stopped defaultVADConfig none (a ++ s1 :: s2 :: b0 :: b')
    _ _ hloop
  rw [hne] at hrec
  simp only [Bool.not_true, Bool.or_false, Bool.false_eq_true, if_false] at hrec
  rw [List.append_assoc, List.singleton_append] at hrec
  have hm2 : maybeSpeechThreshold < s2.prob :=
    lt_trans (show maybeSpeechThreshold < defaultVADConfig.speech_start_threshold by decide) hs2
  have hvT : ∀ x ∈ (b0 :: b').take 64, ¬(maybeSpeechThreshold < x.prob) := by
    intro x hx hlt
    exact hb x (List.take_subset 64 (b0 :: b') hx)
      (lt_trans (by decide : defaultVADConfig.speech_continue_threshold < maybeSpeechThreshold) hlt)
  have hlen20 : 20 ≤ (pushPreBuffer 10 (pushPreBuffer 10 (a.foldl (fun buf c =>
        if maybeSpeechThreshold < c.prob then pushPreBuffer 10 buf c else buf) []) s1) s2
        ++ s2 :: (b0 :: b').take 64).length := by
    simp only [List.length_append, List.length_cons, hT64]
    omega
  have htrim := trim_eq_take
    (pushPreBuffer 10 (pushPreBuffer 10 (a.foldl (fun buf c =>
      if maybeSpeechThreshold < c.prob then pushPreBuffer 10 buf c else buf) []) s1) s2)
    ((b0 :: b').take 64) s2 hlen20 hm2 hvT
  have hmin : min ((pushPreBuffer 10 (pushPreBuffer 10 (a.foldl (fun buf c =>
        if maybeSpeechThreshold < c.prob then pushPreBuffer 10 buf c else buf) []) s1) s2).length
          + 10)
        (pushPreBuffer 10 (pushPreBuffer 10 (a.foldl (fun buf c =>
          if maybeSpeechThreshold < c.prob then pushPreBuffer 10 buf c else buf) []) s1) s2
          ++ s2 :: (b0 :: b').take 64).length
      = (pushPreBuffer 10 (pushPreBuffer 10 (a.foldl (fun buf c =>
          if maybeSpeechThreshold < c.prob then pushPreBuffer 10 buf c else buf) []) s1) s2).length
          + 10 := by
    apply min_eq_left
    simp only [List.length_append, List.length_cons, hT64]
    omega
  have htake : (pushPreBuffer 10 (pushPreBuffer 10 (a.foldl (fun buf c =>
        if maybeSpeechThreshold < c.prob then pushPreBuffer 10 buf c else buf) []) s1) s2
        ++ s2 :: (b0 :: b').take 64).take
          ((pushPreBuffer 10 (pushPreBuffer 10 (a.foldl (fun buf c =>
            if maybeSpeechThreshold < c.prob then pushPreBuffer 10 buf c else buf) []) s1) s2).length
            + 10)
      = pushPreBuffer 10 (pushPreBuffer 10 (a.foldl (fun buf c =>
          if maybeSpeechThreshold < c.prob then pushPreBuffer 10 buf c else buf) []) s1) s2
          ++ s2 :: (b0 :: b').take 9 := by
    rw [List.take_append_eq_append_take, List.take_of_length_le (by omega)]
    congr 1
    rw [show (pushPreBuffer 10 (pushPreBuffer 10 (a.foldl (fun buf c =>
          if maybeSpeechThreshold < c.prob then pushPreBuffer 10 buf c else buf) []) s1) s2).length
          + 10
          - (pushPreBuffer 10 (pushPreBuffer 10 (a.foldl (fun buf c =>
            if maybeSpeechThreshold < c.prob then pushPreBuffer 10 buf c else buf) []) s1) s2).length
        = 10 from by omega]
    rw [show (10:ℕ) = 9 + 1 from rfl, List.take_succ_cons]
    congr 1
    rw [List.take_take]
    norm_num
  have hfinal : record_with_vad defaultVADConfig none (a ++ s1 :: s2 :: b0 :: b')
      = some (some (pushPreBuffer 10 (pushPreBuffer 10 (a.foldl (fun buf c =>
          if maybeSpeechThreshold < c.prob then pushPreBuffer 10 buf c else buf) []) s1) s2
          ++ s2 :: (b0 :: b').take 9)) := by
    rw [hrec, htrim, hmin, htake]
  refine ⟨pushPreBuffer 10 (pushPreBuffer 10 (a.foldl (fun buf c =>
      if maybeSpeechThreshold < c.prob then pushPreBuffer 10 buf c else buf) []) s1) s2,
    hPd, hfinal, ?_, ?_⟩
  · have hPlen : (pushPreBuffer 10 (pushPreBuffer 10 (a.foldl (fun buf c =>
        if maybeSpeechThreshold < c.prob then pushPreBuffer 10 buf c else buf) []) s1) s2).length
        = min 10 ((a.filter fun c => decide (maybeSpeechThreshold < c.prob)).length + 2) := by
      rw [hPd, List.length_drop]
      simp only [List.length_append, List.length_cons, List.length_nil]
      omega
    simp only [List.length_append, List.length_cons, List.length_take, hPlen]
    omega
  · intro trace2 ht2
    rw [ht2]
    exact hfinal

/-- Witness for claim C3: an empty prefix, two start chunks of probability 0.9
and 64 trailing silent chunks; the returned segment holds the two pre-buffered
start chunks, the second start chunk again, and 9 trailing chunks. -/
theorem claim_C3_witness :
    record_with_vad defaultVADConfig none
        (([] : List VChunk) ++ (⟨mkRat 9 10, 0⟩ : VChunk) :: (⟨mkRat 9 10, 1⟩ : VChunk) ::
          List.replicate 64 (⟨0, 2⟩ : VChunk))
      = some (some ((⟨mkRat 9 10, 0⟩ : VChunk) :: (⟨mkRat 9 10, 1⟩ : VChunk) ::
          (⟨mkRat 9 10, 1⟩ : VChunk) ::
          (List.replicate 64 (⟨0, 2⟩ : VChunk)).take 9)) := by
  obtain ⟨pre, hpre, hrec, -, -⟩ := claim_C3 [] (List.replicate 64 ⟨0, 2⟩)
    ⟨mkRat 9 10, 0⟩ ⟨mkRat 9 10, 1⟩ (by decide) (by decide) (by decide) (by decide)
    (by decide) (by decide)
  rw [hrec, hpre]
  decide

end ClaudeVoice
